import Mathlib

/-
Verification of `h5tools/image_packer.py` (HDF5 Image Packer).

The Python program is embedded shallowly:
  * filesystem sources become `Source` values (directory with children,
    regular file, or a missing path);
  * image files become `ImgFile` records carrying the dimensions PIL would
    report, or `none` when `Image.open` would raise an `OSError`
    (pixel intensities are abstracted away, dimensions and the
    resized-or-not provenance of every written slice are kept);
  * the HDF5 container becomes an insertion-ordered association list of
    groups, each group an insertion-ordered association list of arrays;
  * Python exceptions and `exit(n)` calls become explicit outcome
    constructors.
Every definition mirrors the corresponding function of the source file.
-/

set_option autoImplicit false

namespace H5Tools

/-- The result of a successful `Image.open`: the dimensions PIL reports as
`image.size = (width, height)`. Pixel contents are abstracted. -/
structure PyImage where
  width : Nat
  height : Nat
  deriving DecidableEq, Repr

/-- A filesystem file: its final path component (used for the extension
check) and the image PIL would decode from it (`none` when `Image.open`
raises an `OSError`, e.g. missing file or undecodable contents). -/
structure ImgFile where
  name : String
  image : Option PyImage
  deriving DecidableEq, Repr

/-- What kind of filesystem object a source path points at. -/
inductive SourceKind where
  /-- A directory with the given immediate children (non-recursive). -/
  | dir (children : List ImgFile)
  /-- A regular file. -/
  | file
  /-- A path that does not exist on the filesystem. -/
  | missing
  deriving DecidableEq, Repr

/-- A source path supplied on the command line: its base name
(`PurePath.name`, used as the dataset key) and its filesystem kind. -/
structure Source where
  name : String
  kind : SourceKind
  deriving DecidableEq, Repr

/-- Python exceptions that escape the program uncaught. -/
inductive PyError where
  /-- `FileNotFoundError` from `src.iterdir()` on a missing path. -/
  | fileNotFoundError
  /-- `NotADirectoryError` from `src.iterdir()` on a regular file. -/
  | notADirectoryError
  /-- `UnboundLocalError` from reading `width`/`height` before assignment. -/
  | unboundLocalError
  /-- `IndexError` from `dataset_files[key][0]` on an empty list. -/
  | indexError
  deriving DecidableEq, Repr

/-- One slice of an HDF5 array: either still the default fill value
(all zeros for `uint8`), or the written grayscale image with its
dimensions and whether it was produced by the BICUBIC resize. -/
inductive Slice where
  /-- Untouched slice: the array's default fill value (zeros). -/
  | fill
  /-- A written slice: grayscale pixels of size `w`×`h`; `resized` records
  whether the BICUBIC resize was applied (native size differed). -/
  | written (w h : Nat) (resized : Bool)
  deriving DecidableEq, Repr

/-- An HDF5 dataset (array): its shape as passed to `create_dataset`
(dtype is always `uint8`) and its slices along the first axis. -/
structure HArray where
  shape : List Int
  slices : List Slice
  deriving DecidableEq, Repr

/-- An HDF5 group: insertion-ordered map from member name to array. -/
abbrev Group := List (String × HArray)

/-- An HDF5 container file: insertion-ordered map from group path to
group contents. Only the groups the program touches are modelled. -/
abbrev Container := List (String × Group)

/-- Association-list lookup by key (first match). -/
def lookupA {α : Type} : List (String × α) → String → Option α
  | [], _ => none
  | (k', v) :: t, k => if k' = k then some v else lookupA t k

/-- Python `d[k] = v` on an insertion-ordered dict with unique keys:
replace the value at the first occurrence of `k` keeping its position,
or append `(k, v)` at the end when `k` is absent. -/
def dictInsert {α : Type} : List (String × α) → String → α → List (String × α)
  | [], k, v => [(k, v)]
  | (k', v') :: t, k, v =>
      if k' = k then (k, v) :: t else (k', v') :: dictInsert t k v

/-- Splitting a character list at every occurrence of `sep`, keeping
empty fragments: the semantics of Python `str.split(sep)` with a
one-character separator. The result is always non-empty. -/
def splitOnChar (sep : Char) : List Char → List (List Char)
  | [] => [[]]
  | c :: rest =>
      match splitOnChar sep rest with
      | [] => if c = sep then [[], []] else [[c]]
      | g :: gs => if c = sep then [] :: g :: gs else (c :: g) :: gs

/-- Python `s.split(sep)` for a one-character separator. -/
def pySplit (s : String) (sep : Char) : List String :=
  (splitOnChar sep s.data).map String.mk

/-- ASCII lower-casing of one character: the fragment of Python
`str.lower()` relevant to file extensions. -/
def asciiLower (c : Char) : Char :=
  if 'A' ≤ c ∧ c ≤ 'Z' then Char.ofNat (c.toNat + 32) else c

/-- ASCII `str.lower()` (extensions compared by the code are ASCII). -/
def lowerStr (s : String) : String :=
  ⟨s.data.map asciiLower⟩

/-- Models `PurePath.suffix.lower()`: the extension from the last dot on,
lower-cased; empty when there is no dot, the name ends in a dot, or the
only dot is the leading one (hidden files). -/
def pySuffix (s : String) : String :=
  match pySplit s '.' with
  | [] => ""
  | [_] => ""
  | ps =>
      let last := (ps.getLast?).getD ""
      if last = "" then ""
      else if ps.length = 2 ∧ ps.head? = some "" then ""
      else "." ++ lowerStr last

/-- Models `_isImageFile_`: the extension (lower-cased) is one of
`.jpeg`, `.jpg`, `.png`, `.bmp`. -/
def isImageFile (f : ImgFile) : Bool :=
  pySuffix f.name ∈ [".jpeg", ".jpg", ".png", ".bmp"]

/-- Outcome of `_mapDatasetsToFiles_`. -/
inductive MapResult where
  /-- Normal return: the dataset-name → image-files dict, in order. -/
  | ok (dses : List (String × List ImgFile))
  /-- `exit(0)` because not a single dataset was found. -/
  | exitZero
  /-- An uncaught exception escapes the function. -/
  | crash (e : PyError)
  deriving DecidableEq, Repr

/-- The loop body of `_mapDatasetsToFiles_`, folding over the sources with
the dict built so far. For every source the code evaluates
`[file for file in src.iterdir() if src.is_dir()]`: iterating
`src.iterdir()` raises `NotADirectoryError` on a regular file and
`FileNotFoundError` on a missing path before the filter can apply, so
non-directory sources crash the run. For a directory the children are
kept, `src` itself is appended when `src.is_file()` (never, for a
directory), non-image files are filtered out, empty results are dropped
with a warning, and otherwise `dses[src.name] = files`. -/
def mapGo : List Source → List (String × List ImgFile) → MapResult
  | [], dses => if dses.isEmpty then .exitZero else .ok dses
  | src :: rest, dses =>
      match src.kind with
      | .missing => .crash .fileNotFoundError
      | .file => .crash .notADirectoryError
      | .dir children =>
          let files := children.filter isImageFile
          if files.isEmpty then mapGo rest dses
          else mapGo rest (dictInsert dses src.name files)

/-- Models `_mapDatasetsToFiles_(sources)`. -/
def mapDatasetsToFiles (sources : List Source) : MapResult :=
  mapGo sources []

/-- The digits part of Python `int(s)`: value of a non-empty string of
decimal digits, `none` otherwise. -/
def digitsVal (cs : List Char) : Option Nat :=
  if cs.isEmpty then none
  else cs.foldl
    (fun acc c => acc.bind fun n =>
      if c.isDigit then some (10 * n + (c.toNat - 48)) else none)
    (some 0)

/-- Models the Python builtin `int(s)` on its common form: an optional
sign followed by decimal digits; anything else raises `ValueError`
(here `none`). Whitespace and underscore forms are not modelled; no
argument exercised below uses them. -/
def pyInt (s : String) : Option Int :=
  match s.data with
  | '+' :: rest => (digitsVal rest).map Int.ofNat
  | '-' :: rest => (digitsVal rest).map (fun n => -(n : Int))
  | cs => (digitsVal cs).map Int.ofNat

/-- `int(x)` applied to every fragment in order, failing as a whole as
soon as one fragment fails: the evaluation of
`tuple(int(x) for x in ...)`. -/
def intsOf : List String → Option (List Int)
  | [] => some []
  | f :: t =>
      match pyInt f with
      | none => none
      | some v => (intsOf t).map (fun vs => v :: vs)

/-- Models `_shape_(shape)`: `tuple(int(x) for x in shape.split('x'))`.
A `ValueError` from `int` is caught by argparse and turned into an
argument-parsing error (`none`). Note the code never checks that the
result has exactly two components or that they are positive. -/
def shapeArg (s : String) : Option (List Int) :=
  intsOf (pySplit s 'x')

/-- Outcome of `_getShape_(dataset_files, key)` (always called with an
explicit `key` by `_saveToHDF5_`): open `dataset_files[key][0]` and
return `image.size = (width, height)`. -/
inductive GetShapeResult where
  /-- The first file opened; its `(width, height)`. -/
  | ok (w h : Nat)
  /-- `Image.open` raised `OSError`: logged, then `exit(1)`. -/
  | exitOne
  /-- `dataset_files[key][0]` on an empty list raises `IndexError`. -/
  | indexError
  deriving DecidableEq, Repr

/-- Models `_getShape_` applied to `dataset_files[key]`. -/
def getShape (files : List ImgFile) : GetShapeResult :=
  match files.head? with
  | none => .indexError
  | some f =>
      match f.image with
      | none => .exitOne
      | some img => .ok img.width img.height

/-- Models the inner `for i, path in enumerate(dataset_files[name])` loop
of `_saveToHDF5_`. `wh` is the state of the function locals
`width, height`: `none` while unassigned (which is forever when the user
supplied `--shape`, since that branch never assigns them). For each file:
an `IOError` from `Image.open` is caught, logged and the slice left at
the fill value; on a successfully opened image the code evaluates
`data.size != (width, height)`, which raises `UnboundLocalError` when
the locals were never assigned, aborting the loop; otherwise the image
is converted to grayscale, resized with BICUBIC iff its size differs
from `(width, height)`, and written into slice `i`. Returns the slices
(in order, `fill` for skipped or unreached files) and the uncaught
exception, if any. -/
def writeSlices : Option (Nat × Nat) → List ImgFile → List Slice × Option PyError
  | _, [] => ([], none)
  | wh, f :: rest =>
      match f.image with
      | none =>
          let p := writeSlices wh rest
          (.fill :: p.1, p.2)
      | some img =>
          match wh with
          | none => (.fill :: rest.map (fun _ => Slice.fill), some .unboundLocalError)
          | some (w, h) =>
              let p := writeSlices wh rest
              (.written w h (decide ((img.width, img.height) ≠ (w, h))) :: p.1, p.2)

/-- The group stored at path `root`, or the empty group when absent.
(`h5py` groups read through `hdf[root]`.) -/
def getGroup (c : Container) (root : String) : Group :=
  (lookupA c root).getD []

/-- Models `hdf.require_group(root)`: creates the group (empty) when the
path is absent, otherwise leaves the container untouched. -/
def requireGroupC (c : Container) (root : String) : Container :=
  match lookupA c root with
  | some _ => c
  | none => dictInsert c root []

/-- Outcome of `_saveToHDF5_`, always carrying the container contents at
the moment the outcome is decided (the `with h5py.File` block closes and
flushes the file on every path, including uncaught exceptions). -/
inductive SaveResult where
  /-- Normal return. -/
  | ok (c : Container)
  /-- `exit(1)` raised by `_getShape_`. -/
  | exitOne (c : Container)
  /-- An uncaught exception (not an `OSError`) escapes. -/
  | crash (e : PyError) (c : Container)
  deriving DecidableEq, Repr

/-- The container contents carried by a `SaveResult`. -/
def SaveResult.container : SaveResult → Container
  | .ok c => c
  | .exitOne c => c
  | .crash _ c => c

/-- Outcome of one iteration of the per-dataset loop of `_saveToHDF5_`:
either fall through to the next dataset with updated container and
locals, or abort the whole function. -/
inductive StepResult where
  /-- Fall through to the next dataset. -/
  | next (c : Container) (wh : Option (Nat × Nat))
  /-- The function ends here (uncaught exception or `exit(1)`). -/
  | halt (r : SaveResult)
  deriving DecidableEq, Repr

/-- The creation half of one iteration of the per-dataset loop:
`require_group(root)`, the `name in group.keys()` existence check
(warn and `continue` when it holds, leaving the group untouched),
`create_dataset(name, shape=d_shape, dtype=uint8)` and the per-file
write loop, whose uncaught exception (if any) aborts the whole function
with the file flushed. `dshape` is the already-computed `d_shape`, `wh`
the (possibly still unassigned) locals `width, height`. -/
def saveStepCreate (root : String) (c : Container) (wh : Option (Nat × Nat))
    (name : String) (files : List ImgFile) (dshape : List Int) : StepResult :=
  let c0 := requireGroupC c root
  let grp := getGroup c0 root
  if name ∈ grp.map Prod.fst then .next c0 wh
  else
    let p := writeSlices wh files
    let c2 := dictInsert c0 root (dictInsert grp name ⟨dshape, p.1⟩)
    match p.2 with
    | some e => .halt (.crash e c2)
    | none => .next c2 wh

/-- One iteration of the per-dataset loop of `_saveToHDF5_` on dataset
`name`. When `shape is None` the code calls `_getShape_` (assigning the
locals `width, height`) and sets `d_shape = (n_elements, height, width)`;
otherwise `d_shape = (n_elements, *shape)` with the locals untouched.
Then the creation half runs. -/
def saveStep (shape : Option (List Int)) (root : String) (c : Container)
    (wh : Option (Nat × Nat)) (name : String) (files : List ImgFile) : StepResult :=
  let n : Int := files.length
  match shape with
  | none =>
      match getShape files with
      | .indexError => .halt (.crash .indexError c)
      | .exitOne => .halt (.exitOne c)
      | .ok w h => saveStepCreate root c (some (w, h)) name files [n, (h : Int), (w : Int)]
  | some sh => saveStepCreate root c wh name files (n :: sh)

/-- The per-dataset loop of `_saveToHDF5_`, iterating over the dict in
insertion order; `wh` threads the function locals `width, height`
across iterations. -/
def saveGo (shape : Option (List Int)) (root : String) :
    Container → Option (Nat × Nat) → List (String × List ImgFile) → SaveResult
  | c, _, [] => .ok c
  | c, wh, (name, files) :: rest =>
      match saveStep shape root c wh name files with
      | .halt r => r
      | .next c2 wh2 => saveGo shape root c2 wh2 rest

/-- Models `_saveToHDF5_(filename, dataset_files, shape, root)` under the
assumption that the output container file itself opens (the claims below
never exercise the unopenable-output path). The initial container `c` is
the file's contents on open; the locals `width, height` start unbound. -/
def saveToHDF5 (c : Container) (dses : List (String × List ImgFile))
    (shape : Option (List Int)) (root : String) : SaveResult :=
  saveGo shape root c none dses

/-- The shape of the array stored at `root`/`name`, when present. -/
def arrShape (c : Container) (root name : String) : Option (List Int) :=
  (lookupA (getGroup c root) name).map HArray.shape

/-- The command-line arguments of one run, as handed to argparse:
`rawShape` is the raw `--shape` token (absent when the flag was not
given, default `None`), `root` the `--root` value (default `"/"`),
`output` the required `--output` value, `sources` the positional
source paths. -/
structure Args where
  rawShape : Option String
  root : String
  output : String
  sources : List Source
  deriving Repr

/-- How the process ends. `argError` is argparse's non-zero exit (code 2),
`exitZero` the benign empty-run `exit(0)`, `exitOne` the fatal `exit(1)`,
`success` a normal return from `main` (code 0), `crashed` an uncaught
exception ending in a traceback (code 1). -/
inductive ExitKind where
  | argError
  | exitZero
  | exitOne
  | success
  | crashed (e : PyError)
  deriving DecidableEq, Repr

/-- Final state of one run: how the process ended and the contents of the
output container file afterwards. -/
structure RunResult where
  exit : ExitKind
  container : Container
  deriving DecidableEq, Repr

/-- Models `main()` given the output container's contents on open:
argparse runs first (so a malformed `--shape` aborts before any
filesystem access, leaving the container untouched), then
`_mapDatasetsToFiles_`, then `_saveToHDF5_`. -/
def run (c : Container) (a : Args) : RunResult :=
  let parsed : Option (Option (List Int)) :=
    match a.rawShape with
    | none => some none
    | some s => (shapeArg s).map some
  match parsed with
  | none => ⟨.argError, c⟩
  | some shape =>
      match mapDatasetsToFiles a.sources with
      | .exitZero => ⟨.exitZero, c⟩
      | .crash e => ⟨.crashed e, c⟩
      | .ok dses =>
          match saveToHDF5 c dses shape a.root with
          | .ok c2 => ⟨.success, c2⟩
          | .exitOne c2 => ⟨.exitOne, c2⟩
          | .crash e c2 => ⟨.crashed e, c2⟩

/-- The first file of a dataset's list exists and opens: exactly the
condition under which `_getShape_` returns normally. -/
def firstOpens (files : List ImgFile) : Bool :=
  match getShape files with
  | .ok _ _ => true
  | _ => false

/-- A source that is a directory none of whose children pass the image
extension filter. -/
def isEmptyDirSource (s : Source) : Bool :=
  match s.kind with
  | .dir cs => (cs.filter isImageFile).isEmpty
  | _ => false

/- Association-list lemmas. -/

theorem lookupA_dictInsert_self {α : Type} (l : List (String × α)) (k : String) (v : α) :
    lookupA (dictInsert l k v) k = some v := by
  induction l with
  | nil => simp [dictInsert, lookupA]
  | cons p t ih =>
      obtain ⟨k', v'⟩ := p
      by_cases hk : k' = k
      · subst hk
        simp [dictInsert, lookupA]
      · simp [dictInsert, lookupA, hk, ih]

theorem lookupA_dictInsert_ne {α : Type} (l : List (String × α)) (k k' : String) (v : α)
    (h : k' ≠ k) : lookupA (dictInsert l k v) k' = lookupA l k' := by
  induction l with
  | nil =>
      have h2 : ¬k = k' := fun hc => h hc.symm
      simp [dictInsert, lookupA, h2]
  | cons p t ih =>
      obtain ⟨k₀, v₀⟩ := p
      by_cases hk : k₀ = k
      · subst hk
        have h2 : ¬k₀ = k' := fun hc => h hc.symm
        simp [dictInsert, lookupA, h2]
      · simp only [dictInsert, if_neg hk, lookupA]
        by_cases hc : k₀ = k'
        · simp [hc]
        · simp [hc, ih]

theorem mem_keys_iff_lookupA {α : Type} (l : List (String × α)) (k : String) :
    k ∈ l.map Prod.fst ↔ (lookupA l k).isSome := by
  induction l with
  | nil => simp [lookupA]
  | cons p t ih =>
      obtain ⟨k₀, v₀⟩ := p
      by_cases hc : k₀ = k
      · subst hc
        simp [lookupA]
      · simp only [List.map_cons, List.mem_cons, lookupA, if_neg hc]
        constructor
        · intro h
          rcases h with h | h
          · exact absurd h.symm hc
          · exact ih.mp h
        · intro h
          exact Or.inr (ih.mpr h)

theorem not_mem_keys_dictInsert {α : Type} (l : List (String × α)) (k k' : String) (v : α)
    (h : k' ∉ l.map Prod.fst) (hne : k' ≠ k) :
    k' ∉ (dictInsert l k v).map Prod.fst := by
  rw [mem_keys_iff_lookupA] at h ⊢
  rw [lookupA_dictInsert_ne l k k' v hne]
  exact h

theorem getGroup_requireGroupC (c : Container) (root : String) :
    getGroup (requireGroupC c root) root = getGroup c root := by
  unfold requireGroupC getGroup
  cases h : lookupA c root with
  | some g => simp [h]
  | none => simp [h, lookupA_dictInsert_self]

theorem requireGroupC_eq_of_mem (c : Container) (root name : String)
    (h : name ∈ (getGroup c root).map Prod.fst) : requireGroupC c root = c := by
  unfold requireGroupC
  cases hc : lookupA c root with
  | some g => rfl
  | none =>
      exfalso
      rw [getGroup, hc] at h
      simp at h

theorem arrShape_requireGroupC (c : Container) (root name : String) :
    arrShape (requireGroupC c root) root name = arrShape c root name := by
  unfold arrShape
  rw [getGroup_requireGroupC]

theorem writeSlices_assigned_no_crash (files : List ImgFile) (w h : Nat) :
    (writeSlices (some (w, h)) files).2 = none := by
  induction files with
  | nil => rfl
  | cons f rest ih =>
      cases hf : f.image with
      | none => simp [writeSlices, hf, ih]
      | some img => simp [writeSlices, hf, ih]

/- Lemmas about one iteration of the per-dataset loop. -/

theorem saveStep_inferred_mem (root : String) (c : Container) (wh : Option (Nat × Nat))
    (m : String) (fs : List ImgFile) (w h : Nat)
    (hg : getShape fs = .ok w h) (hm : m ∈ (getGroup c root).map Prod.fst) :
    saveStep none root c wh m fs = .next (requireGroupC c root) (some (w, h)) := by
  have hm2 : m ∈ (getGroup (requireGroupC c root) root).map Prod.fst := by
    rw [getGroup_requireGroupC]; exact hm
  simp [saveStep, hg, saveStepCreate, hm2]

theorem saveStep_inferred_new (root : String) (c : Container) (wh : Option (Nat × Nat))
    (m : String) (fs : List ImgFile) (w h : Nat)
    (hg : getShape fs = .ok w h) (hm : m ∉ (getGroup c root).map Prod.fst) :
    saveStep none root c wh m fs =
      .next (dictInsert (requireGroupC c root) root
          (dictInsert (getGroup c root) m
            ⟨[(fs.length : Int), (h : Int), (w : Int)],
             (writeSlices (some (w, h)) fs).1⟩))
        (some (w, h)) := by
  simp only [saveStep, hg, saveStepCreate, getGroup_requireGroupC]
  rw [if_neg hm, writeSlices_assigned_no_crash]

theorem saveStep_fixed_mem (root : String) (c : Container) (wh : Option (Nat × Nat))
    (m : String) (fs : List ImgFile) (sh : List Int)
    (hm : m ∈ (getGroup c root).map Prod.fst) :
    saveStep (some sh) root c wh m fs = .next (requireGroupC c root) wh := by
  have hm2 : m ∈ (getGroup (requireGroupC c root) root).map Prod.fst := by
    rw [getGroup_requireGroupC]; exact hm
  simp [saveStep, saveStepCreate, hm2]

theorem arrShape_after_create (c : Container) (root m name : String) (harr : HArray)
    (hne : name ≠ m) :
    arrShape (dictInsert (requireGroupC c root) root
        (dictInsert (getGroup c root) m harr)) root name
      = arrShape c root name := by
  unfold arrShape
  have hg : getGroup (dictInsert (requireGroupC c root) root
      (dictInsert (getGroup c root) m harr)) root
      = dictInsert (getGroup c root) m harr := by
    unfold getGroup
    rw [lookupA_dictInsert_self]
    rfl
  rw [hg, lookupA_dictInsert_ne _ _ _ _ hne]

theorem arrShape_create_self (c : Container) (root m : String) (harr : HArray) :
    arrShape (dictInsert (requireGroupC c root) root
        (dictInsert (getGroup c root) m harr)) root m
      = some harr.shape := by
  unfold arrShape
  have hg : getGroup (dictInsert (requireGroupC c root) root
      (dictInsert (getGroup c root) m harr)) root
      = dictInsert (getGroup c root) m harr := by
    unfold getGroup
    rw [lookupA_dictInsert_self]
    rfl
  rw [hg, lookupA_dictInsert_self]
  rfl

theorem firstOpens_getShape (fs : List ImgFile) (h : firstOpens fs = true) :
    ∃ w hh, getShape fs = .ok w hh := by
  unfold firstOpens at h
  cases hg : getShape fs with
  | ok w hh => exact ⟨w, hh, rfl⟩
  | exitOne => rw [hg] at h; simp at h
  | indexError => rw [hg] at h; simp at h

/-- In the inferred-shape mode, processing further datasets none of which
is called `name` never aborts and never touches the array at
`root`/`name`. -/
theorem saveGo_preserves (root name : String) :
    ∀ (rest : List (String × List ImgFile)) (c : Container) (wh : Option (Nat × Nat)),
    (∀ p ∈ rest, firstOpens p.2 = true) →
    (∀ p ∈ rest, p.1 ≠ name) →
    arrShape (saveGo none root c wh rest).container root name = arrShape c root name := by
  intro rest
  induction rest with
  | nil => intro c wh _ _; rfl
  | cons p rest ih =>
      intro c wh hread hname
      obtain ⟨m, fs⟩ := p
      obtain ⟨w, hh, hg⟩ := firstOpens_getShape fs (hread (m, fs) (by simp))
      have hmn : m ≠ name := hname (m, fs) (by simp)
      have hrr : ∀ q ∈ rest, firstOpens q.2 = true :=
        fun q hq => hread q (List.mem_cons_of_mem _ hq)
      have hrn : ∀ q ∈ rest, q.1 ≠ name :=
        fun q hq => hname q (List.mem_cons_of_mem _ hq)
      by_cases hm : m ∈ (getGroup c root).map Prod.fst
      · rw [saveGo, saveStep_inferred_mem root c wh m fs w hh hg hm]
        rw [ih (requireGroupC c root) (some (w, hh)) hrr hrn]
        exact arrShape_requireGroupC c root name
      · rw [saveGo, saveStep_inferred_new root c wh m fs w hh hg hm]
        rw [ih _ (some (w, hh)) hrr hrn]
        exact arrShape_after_create c root m name _ (fun hc => hmn hc.symm)

/-- When every dataset name already exists under the root group (and, in
inferred-shape mode, every dataset's first file opens so `_getShape_`
returns), the whole per-dataset loop only warns and skips, returning the
container exactly as it was. -/
theorem saveGo_all_existing (root : String) (shape : Option (List Int)) :
    ∀ (dses : List (String × List ImgFile)) (c : Container) (wh : Option (Nat × Nat)),
    (shape = none → ∀ p ∈ dses, firstOpens p.2 = true) →
    (∀ p ∈ dses, p.1 ∈ (getGroup c root).map Prod.fst) →
    saveGo shape root c wh dses = .ok c := by
  intro dses
  induction dses with
  | nil => intro c wh _ _; rfl
  | cons p rest ih =>
      intro c wh hread hex
      obtain ⟨m, fs⟩ := p
      have hm : m ∈ (getGroup c root).map Prod.fst := hex (m, fs) (by simp)
      have hc0 : requireGroupC c root = c := requireGroupC_eq_of_mem c root m hm
      have hrr : shape = none → ∀ q ∈ rest, firstOpens q.2 = true :=
        fun hs q hq => hread hs q (List.mem_cons_of_mem _ hq)
      have hexr : ∀ q ∈ rest, q.1 ∈ (getGroup c root).map Prod.fst :=
        fun q hq => hex q (List.mem_cons_of_mem _ hq)
      cases shape with
      | some sh =>
          rw [saveGo, saveStep_fixed_mem root c wh m fs sh hm, hc0]
          exact ih c wh hrr hexr
      | none =>
          obtain ⟨w, hh, hg⟩ := firstOpens_getShape fs (hread rfl (m, fs) (by simp))
          rw [saveGo, saveStep_inferred_mem root c wh m fs w hh hg hm, hc0]
          exact ih c (some (w, hh)) hrr hexr

/- Lemmas about `_mapDatasetsToFiles_`. -/

theorem mapGo_all_empty :
    ∀ (sources : List Source),
    (∀ s ∈ sources, isEmptyDirSource s = true) →
    ∀ acc, mapGo sources acc = if acc.isEmpty then .exitZero else .ok acc := by
  intro sources
  induction sources with
  | nil => intro _ acc; rfl
  | cons s rest ih =>
      intro h acc
      have hs : isEmptyDirSource s = true := h s (by simp)
      have hr : ∀ t ∈ rest, isEmptyDirSource t = true :=
        fun t ht => h t (List.mem_cons_of_mem _ ht)
      cases hk : s.kind with
      | dir cs =>
          have hf : (cs.filter isImageFile).isEmpty = true := by
            rw [isEmptyDirSource, hk] at hs
            exact hs
          rw [mapGo, hk]
          simp only [hf, if_true]
          exact ih hr acc
      | file => rw [isEmptyDirSource, hk] at hs; exact absurd hs (by simp)
      | missing => rw [isEmptyDirSource, hk] at hs; exact absurd hs (by simp)

theorem mapGo_missing_crashes :
    ∀ (sources : List Source) (s : Source),
    s ∈ sources → s.kind = .missing →
    (∀ t ∈ sources, t.kind ≠ .file) →
    ∀ acc, mapGo sources acc = .crash .fileNotFoundError := by
  intro sources
  induction sources with
  | nil => intro s hs; exact absurd hs (List.not_mem_nil s)
  | cons t rest ih =>
      intro s hs hmiss hnofile acc
      cases hk : t.kind with
      | missing => rw [mapGo, hk]
      | file => exact absurd hk (hnofile t (by simp))
      | dir cs =>
          have hsr : s ∈ rest := by
            rcases List.mem_cons.mp hs with he | hr
            · exfalso; rw [he] at hmiss; rw [hmiss] at hk; cases hk
            · exact hr
          have hnr : ∀ u ∈ rest, u.kind ≠ .file :=
            fun u hu => hnofile u (List.mem_cons_of_mem _ hu)
          rw [mapGo, hk]
          by_cases hf : (cs.filter isImageFile).isEmpty = true
          · simp only [hf, if_true]
            exact ih s hsr hmiss hnr acc
          · simp only [Bool.not_eq_true] at hf
            simp only [hf, Bool.false_eq_true, if_false]
            exact ih s hsr hmiss hnr _

theorem intsOf_isSome (l : List String) :
    (intsOf l).isSome ↔ ∀ f ∈ l, (pyInt f).isSome := by
  induction l with
  | nil => simp [intsOf]
  | cons a t ih =>
      cases hpa : pyInt a with
      | none => simp [intsOf, hpa]
      | some v =>
          simp only [intsOf, hpa, List.mem_cons]
          cases ht : intsOf t with
          | none => simp [ht, ← ih]
          | some vs => simp [ht, ← ih, hpa]

theorem getGroup_dictInsert_self (c : Container) (root : String) (G : Group) :
    getGroup (dictInsert c root G) root = G := by
  unfold getGroup
  rw [lookupA_dictInsert_self]
  rfl

/-- In the inferred-shape mode, when dataset `name` (with first file of
intrinsic size `w`×`h`) appears in the mapping, every dataset's first
file opens, the mapping's keys are unique, and `name` is not yet in the
root group, the loop creates under `name` an array with shape
`(count, h, w)` and that array survives to the end of the function. -/
theorem saveGo_creates_inferred (root name : String) :
    ∀ (dses : List (String × List ImgFile)) (c : Container) (wh : Option (Nat × Nat))
      (files : List ImgFile) (f : ImgFile) (w h : Nat),
    (name, files) ∈ dses →
    (dses.map Prod.fst).Nodup →
    files.head? = some f →
    f.image = some ⟨w, h⟩ →
    name ∉ (getGroup c root).map Prod.fst →
    (∀ p ∈ dses, firstOpens p.2 = true) →
    arrShape (saveGo none root c wh dses).container root name
      = some [(files.length : Int), (h : Int), (w : Int)] := by
  intro dses
  induction dses with
  | nil => intro c wh files f w h hmem; exact absurd hmem (List.not_mem_nil _)
  | cons p rest ih =>
      intro c wh files f w h hmem hnodup hhead himg hnew hread
      obtain ⟨m, fs⟩ := p
      have hnodup2 : m ∉ rest.map Prod.fst ∧ (rest.map Prod.fst).Nodup := by
        rw [List.map_cons] at hnodup
        exact List.nodup_cons.mp hnodup
      rcases List.mem_cons.mp hmem with heq | hmemr
      · cases heq
        have hg : getShape files = .ok w h := by
          simp [getShape, hhead, himg]
        have hrr : ∀ q ∈ rest, firstOpens q.2 = true :=
          fun q hq => hread q (List.mem_cons_of_mem _ hq)
        have hrn : ∀ q ∈ rest, q.1 ≠ name :=
          fun q hq hqe => hnodup2.1 (hqe ▸ List.mem_map_of_mem Prod.fst hq)
        rw [saveGo, saveStep_inferred_new root c wh name files w h hg hnew]
        rw [saveGo_preserves root name rest _ (some (w, h)) hrr hrn]
        exact arrShape_create_self c root name _
      · have hmname : m ≠ name := fun he =>
          hnodup2.1 (he ▸ List.mem_map_of_mem Prod.fst hmemr)
        obtain ⟨w2, h2, hg⟩ := firstOpens_getShape fs (hread (m, fs) (by simp))
        have hrr : ∀ q ∈ rest, firstOpens q.2 = true :=
          fun q hq => hread q (List.mem_cons_of_mem _ hq)
        by_cases hm : m ∈ (getGroup c root).map Prod.fst
        · rw [saveGo, saveStep_inferred_mem root c wh m fs w2 h2 hg hm]
          refine ih (requireGroupC c root) (some (w2, h2)) files f w h hmemr hnodup2.2 hhead himg ?_ hrr
          rw [getGroup_requireGroupC]
          exact hnew
        · rw [saveGo, saveStep_inferred_new root c wh m fs w2 h2 hg hm]
          refine ih _ (some (w2, h2)) files f w h hmemr hnodup2.2 hhead himg ?_ hrr
          rw [getGroup_dictInsert_self]
          exact not_mem_keys_dictInsert _ _ _ _ hnew (fun he => hmname he.symm)

/- Claim theorems. -/

/-- C1: the claim says a run with `--shape 10x10` on a source holding one
20×20 image stores a 10×10 bicubic-resized grayscale slice at that
image's index and completes normally. The code instead crashes: with a
user-supplied shape the locals `width, height` of `_saveToHDF5_` are
never assigned, so evaluating `data.size != (width, height)` on the
first successfully opened image raises `UnboundLocalError` (not caught
by the `except IOError`); the array is created with shape `[1, 10, 10]`
but its slice is never written, and the run dies with a traceback. -/
theorem c1_fixed_shape_run_crashes_unbound :
    run [] ⟨some "10x10", "/", "out.h5",
        [⟨"pics", SourceKind.dir [⟨"a.png", some ⟨20, 20⟩⟩]⟩]⟩
      = ⟨.crashed .unboundLocalError,
         [("/", [("pics", ⟨[1, 10, 10], [.fill]⟩)])]⟩ := by
  decide

/-- C2: the claim says a fixed shape parsed from `WxH` yields an array of
shape `(count, height, width)`. The code parses `"640x480"` to the tuple
`(640, 480) = (W, H)` and creates `d_shape = (n_elements, *shape)` =
`(count, width, height)`: for three files the created array has shape
`[3, 640, 480]`, not the claimed `[3, 480, 640]`. (The inferred-shape
branch and the written slices both use `(count, height, width)`, so the
fixed-shape branch is the inconsistent one.) -/
theorem c2_fixed_shape_dims_swapped :
    shapeArg "640x480" = some [640, 480] ∧
    run [] ⟨some "640x480", "/", "out.h5",
        [⟨"d", SourceKind.dir [⟨"a.jpg", none⟩, ⟨"b.jpg", none⟩, ⟨"c.jpg", none⟩]⟩]⟩
      = ⟨.success, [("/", [("d", ⟨[3, 640, 480], [.fill, .fill, .fill]⟩)])]⟩ ∧
    ([3, 640, 480] : List Int) ≠ [3, 480, 640] := by
  refine ⟨by decide, by decide, by decide⟩

/-- C3: the claim says a regular file with an image extension becomes the
sole member of its dataset and processing continues. The code instead
crashes: the list comprehension
`[file for file in src.iterdir() if src.is_dir()]` iterates
`src.iterdir()` before the filter applies, raising `NotADirectoryError`
on a regular file, so the `src.is_file()` append is never reached. -/
theorem c3_file_source_crashes_notadir :
    mapDatasetsToFiles [⟨"cat.jpg", SourceKind.file⟩] = .crash .notADirectoryError ∧
    run [] ⟨none, "/", "out.h5", [⟨"cat.jpg", SourceKind.file⟩]⟩
      = ⟨.crashed .notADirectoryError, []⟩ := by
  refine ⟨by decide, by decide⟩

/-- C4 counterexample: the claim says that of two sources with the same
base name the mapping keeps the files of the first. With
`cats` → `[a.jpg]` followed by `cats` → `[b.jpg]`, the mapping holds
`[b.jpg]`, the second source's files, not the first's:
`dses[src.name] = files` overwrites the earlier entry. -/
theorem c4_first_colliding_source_lost :
    mapDatasetsToFiles
        [⟨"cats", SourceKind.dir [⟨"a.jpg", none⟩]⟩,
         ⟨"cats", SourceKind.dir [⟨"b.jpg", none⟩]⟩]
      = .ok [("cats", [⟨"b.jpg", none⟩])] ∧
    ([(⟨"b.jpg", none⟩ : ImgFile)] ≠ [(⟨"a.jpg", none⟩ : ImgFile)]) := by
  refine ⟨by decide, by decide⟩

/-- C4 amended: for two sources with the same base name both yielding
image files, the mapping contains a single entry under that name holding
the files of the LAST such source (Python dict assignment replaces the
value, keeping the first insertion's position). -/
theorem c4_colliding_sources_last_wins (name : String) (cs1 cs2 : List ImgFile)
    (h1 : (cs1.filter isImageFile).isEmpty = false)
    (h2 : (cs2.filter isImageFile).isEmpty = false) :
    mapDatasetsToFiles [⟨name, SourceKind.dir cs1⟩, ⟨name, SourceKind.dir cs2⟩]
      = .ok [(name, cs2.filter isImageFile)] := by
  simp [mapDatasetsToFiles, mapGo, h1, h2, dictInsert]

theorem c4_colliding_sources_last_wins_witness :
    mapDatasetsToFiles
        [⟨"dogs", SourceKind.dir [⟨"c.png", none⟩]⟩,
         ⟨"dogs", SourceKind.dir [⟨"d.png", none⟩]⟩]
      = .ok [("dogs", [⟨"d.png", none⟩])] :=
  c4_colliding_sources_last_wins "dogs" [⟨"c.png", none⟩] [⟨"d.png", none⟩] rfl rfl

/-- C5 counterexample: the claim says every accepted `--shape` value is a
pair of two positive integers. But `_shape_` never checks arity or sign:
`"0x10"` is accepted as `(0, 10)` (not positive) and `"7"` is accepted
as the 1-tuple `(7,)` (not a pair). -/
theorem c5_shape_accepts_non_pairs :
    shapeArg "0x10" = some [0, 10] ∧ ¬(∀ x ∈ [(0 : Int), 10], 0 < x) ∧
    shapeArg "7" = some [7] ∧ [(7 : Int)].length ≠ 2 := by
  refine ⟨by decide, by decide, by decide, by decide⟩

/-- C5 amended: `--shape` parsing succeeds iff every `'x'`-separated
field of the string parses as a Python integer literal — the accepted
value is the tuple of those integers, with no constraint on arity or
positivity; a string with a non-integer field, such as `"abcx10"`, is
rejected by argparse before any filesystem access, leaving the output
container untouched. -/
theorem c5_shape_arg_ok_iff :
    (∀ s : String, (shapeArg s).isSome ↔ ∀ f ∈ pySplit s 'x', (pyInt f).isSome) ∧
    shapeArg "abcx10" = none ∧
    (∀ (c : Container) (root out : String) (sources : List Source) (s : String),
      shapeArg s = none →
      run c ⟨some s, root, out, sources⟩ = ⟨.argError, c⟩) := by
  refine ⟨fun s => intsOf_isSome _, by decide, ?_⟩
  intro c root out sources s hs
  simp [run, hs]

theorem c5_shape_arg_ok_iff_witness :
    run [] ⟨some "abcx10", "/", "out.h5",
        [⟨"cats", SourceKind.dir [⟨"a.jpg", some ⟨20, 20⟩⟩]⟩]⟩
      = ⟨.argError, []⟩ :=
  c5_shape_arg_ok_iff.2.2 [] "/" "out.h5"
    [⟨"cats", SourceKind.dir [⟨"a.jpg", some ⟨20, 20⟩⟩]⟩] "abcx10" rfl

/-- C6: for a dataset written without a user-supplied shape, the created
array's shape is `(count, height, width)` where `count` is the number of
files of the dataset and `(width, height)` the intrinsic dimensions PIL
reports for the dataset's first file; the entry is still present,
unchanged, when `_saveToHDF5_` finishes. -/
theorem c6_inferred_shape_array_dims
    (c : Container) (root name : String) (dses : List (String × List ImgFile))
    (files : List ImgFile) (f : ImgFile) (w h : Nat)
    (hmem : (name, files) ∈ dses)
    (hnodup : (dses.map Prod.fst).Nodup)
    (hhead : files.head? = some f)
    (himg : f.image = some ⟨w, h⟩)
    (hnew : name ∉ (getGroup c root).map Prod.fst)
    (hread : ∀ p ∈ dses, firstOpens p.2 = true) :
    arrShape (saveToHDF5 c dses none root).container root name
      = some [(files.length : Int), (h : Int), (w : Int)] :=
  saveGo_creates_inferred root name dses c none files f w h
    hmem hnodup hhead himg hnew hread

theorem c6_inferred_shape_array_dims_witness :
    arrShape (saveToHDF5 []
        [("cats", [⟨"a.jpg", some ⟨64, 48⟩⟩, ⟨"b.jpg", some ⟨10, 10⟩⟩])]
        none "/").container "/" "cats"
      = some [2, 48, 64] :=
  c6_inferred_shape_array_dims [] "/" "cats"
    [("cats", [⟨"a.jpg", some ⟨64, 48⟩⟩, ⟨"b.jpg", some ⟨10, 10⟩⟩])]
    [⟨"a.jpg", some ⟨64, 48⟩⟩, ⟨"b.jpg", some ⟨10, 10⟩⟩]
    ⟨"a.jpg", some ⟨64, 48⟩⟩ 64 48
    (by decide) (by decide) rfl rfl (by decide) (by decide)

/-- C7: when every dataset name of the run already exists under the root
group (as after re-running the tool with identical arguments) — and, in
inferred-shape mode, every dataset's first file opens so `_getShape_`
returns — `_saveToHDF5_` only warns and skips each dataset and returns
with the container contents exactly as they were: shapes, dtypes and
slices of all existing arrays are untouched. -/
theorem c7_existing_dataset_skipped
    (c : Container) (root : String) (shape : Option (List Int))
    (dses : List (String × List ImgFile))
    (hread : shape = none → ∀ p ∈ dses, firstOpens p.2 = true)
    (hex : ∀ p ∈ dses, p.1 ∈ (getGroup c root).map Prod.fst) :
    saveToHDF5 c dses shape root = .ok c :=
  saveGo_all_existing root shape dses c none hread hex

theorem c7_existing_dataset_skipped_witness :
    saveToHDF5 [("/", [("cats", ⟨[2, 48, 64], [.fill, .fill]⟩)])]
        [("cats", [⟨"a.jpg", some ⟨64, 48⟩⟩])] (some [10, 10]) "/"
      = .ok [("/", [("cats", ⟨[2, 48, 64], [.fill, .fill]⟩)])] :=
  c7_existing_dataset_skipped
    [("/", [("cats", ⟨[2, 48, 64], [.fill, .fill]⟩)])] "/" (some [10, 10])
    [("cats", [⟨"a.jpg", some ⟨64, 48⟩⟩])]
    (fun hs => absurd hs (by simp)) (by decide)

/-- C8: the claim says a file that fails to open is skipped (slice left
at the fill value) and all remaining files and datasets still get
processed, the run ending without error. That holds in the
inferred-shape mode, but with a user-supplied `--shape` the code crashes
on the first file that DOES open (`UnboundLocalError` on the never
assigned `width, height`): here `bad.jpg` is skipped as claimed, yet the
run then dies on `good.jpg`, whose slice stays at the fill value, so the
remaining file is not processed and the process ends with a traceback. -/
theorem c8_decode_skip_then_crash :
    run [] ⟨some "10x10", "/", "out.h5",
        [⟨"d", SourceKind.dir [⟨"bad.jpg", none⟩, ⟨"good.jpg", some ⟨20, 20⟩⟩]⟩]⟩
      = ⟨.crashed .unboundLocalError,
         [("/", [("d", ⟨[2, 10, 10], [.fill, .fill]⟩)])]⟩ := by
  decide

/-- C9: when every source is a directory yielding zero image files after
the extension filter, `_mapDatasetsToFiles_` logs a warning and calls
`exit(0)` before `_saveToHDF5_` ever runs, so the run ends successfully
with the output container exactly as it was: no group or array is
created. -/
theorem c9_no_datasets_exit_zero
    (c : Container) (root out : String) (sources : List Source)
    (h : ∀ s ∈ sources, isEmptyDirSource s = true) :
    run c ⟨none, root, out, sources⟩ = ⟨.exitZero, c⟩ := by
  have hm : mapDatasetsToFiles sources = .exitZero := by
    unfold mapDatasetsToFiles
    rw [mapGo_all_empty sources h []]
    rfl
  simp [run, hm]

theorem c9_no_datasets_exit_zero_witness :
    run [] ⟨none, "/", "out.h5",
        [⟨"empty", SourceKind.dir [⟨"readme.txt", none⟩]⟩]⟩
      = ⟨.exitZero, []⟩ :=
  c9_no_datasets_exit_zero [] "/" "out.h5"
    [⟨"empty", SourceKind.dir [⟨"readme.txt", none⟩]⟩] (by decide)

/-- C10: a run whose sources include a path that does not exist (and no
regular-file source, which would crash even earlier, see C3) crashes
with an uncaught `FileNotFoundError` raised while iterating
`src.iterdir()`: no warning-and-skip, no documented exit path, the
process dies with a traceback and the container is untouched. -/
theorem c10_missing_source_crashes
    (sources : List Source) (s : Source)
    (hs : s ∈ sources) (hmiss : s.kind = .missing)
    (hnofile : ∀ t ∈ sources, t.kind ≠ .file) :
    mapDatasetsToFiles sources = .crash .fileNotFoundError ∧
    ∀ (c : Container) (root out : String),
      run c ⟨none, root, out, sources⟩ = ⟨.crashed .fileNotFoundError, c⟩ := by
  have hm : mapDatasetsToFiles sources = .crash .fileNotFoundError :=
    mapGo_missing_crashes sources s hs hmiss hnofile []
  exact ⟨hm, fun c root out => by simp [run, hm]⟩

theorem c10_missing_source_crashes_witness :
    mapDatasetsToFiles [⟨"ghost", SourceKind.missing⟩] = .crash .fileNotFoundError ∧
    run [] ⟨none, "/", "out.h5", [⟨"ghost", SourceKind.missing⟩]⟩
      = ⟨.crashed .fileNotFoundError, []⟩ := by
  have h := c10_missing_source_crashes [⟨"ghost", SourceKind.missing⟩]
    ⟨"ghost", SourceKind.missing⟩ (by decide) rfl (by decide)
  exact ⟨h.1, h.2 [] "/" "out.h5"⟩

end H5Tools
